import Mathlib

/-
Verification of the LinkedIn posting agent's coordination logic.

Shallow embedding of the relevant parts of the program:
  - src/src/article_fetcher.py : retry loop, provider fan-out, URL dedupe
  - src/src/database.py        : processed-article ledger (sqlite)
  - src/src/telegram_bot.py    : approval correlation table and poll loop
  - src/main.py                : per-article pipeline
  - src/src/orchestrator.py    : alternative pipeline (record calls)

Machine state (dicts, sqlite rows) is passed explicitly; fallible calls
return Option; external oracles (HTTP, the human, the LLM) are function
parameters.
-/

/-- An article as fetched (src/src/article_fetcher.py, dataclass Article). -/
structure Article where
  title : String
  url : String
  source : String
  summary : Option String := none
  deriving DecidableEq, Repr

/-- The dedupe loop inside ArticleFetcher.fetch_all_articles
(article_fetcher.py lines 313-337): walk the concatenated provider results
in order, keep an article iff its url is not yet in seen_urls, and add each
kept url to seen_urls. -/
def dedupeByUrl : List Article → List String → List Article
  | [], _ => []
  | a :: rest, seen =>
    if a.url ∈ seen then dedupeByUrl rest seen
    else a :: dedupeByUrl rest (a.url :: seen)

/-- The duplicates dropped by the same loop (each one produces a
"Duplicate article skipped" log line, which is how the run counts them). -/
def droppedByUrl : List Article → List String → List Article
  | [], _ => []
  | a :: rest, seen =>
    if a.url ∈ seen then a :: droppedByUrl rest seen
    else droppedByUrl rest (a.url :: seen)

/-- ArticleFetcher.fetch_all_articles: concatenate the enabled providers'
results in a fixed order and dedupe by url, first occurrence wins. -/
def fetch_all_articles (providerResults : List (List Article)) : List Article :=
  dedupeByUrl providerResults.flatten []

/-- State of Database (src/src/database.py): `conn` is whether the sqlite
connection is live (it is None when _setup_database failed), `opError` is
whether sqlite operations raise a non-integrity sqlite3.Error, `rows` is
the set of urls in the processed_articles table (url is a UNIQUE column). -/
structure Database where
  conn : Bool
  opError : Bool
  rows : List String
  deriving DecidableEq, Repr

/-- Database.article_is_processed (database.py lines 43-62): returns False
when the connection is down ("Fail safe: assume not processed if DB is
down"), False when the SELECT raises sqlite3.Error, else whether a row with
this url exists. -/
def article_is_processed (db : Database) (url : String) : Bool :=
  if !db.conn then false
  else if db.opError then false
  else decide (url ∈ db.rows)

/-- Database.add_processed_article (database.py lines 64-88): returns False
and leaves the table unchanged when the connection is down, when the INSERT
raises sqlite3.Error, or when the url already exists (IntegrityError from
the UNIQUE constraint); otherwise inserts the url and returns True. -/
def add_processed_article (db : Database) (url : String) : Database × Bool :=
  if !db.conn then (db, false)
  else if db.opError then (db, false)
  else if url ∈ db.rows then (db, false)
  else ({ db with rows := url :: db.rows }, true)

/-- Python call compatibility: a call with `npos` positional arguments and
keyword arguments `kws` is accepted by a function whose parameter list
(excluding self) is `params` iff the positional arguments do not exceed the
parameters and every keyword names a parameter not already bound
positionally; otherwise the call raises TypeError. -/
def pyCallOk (params : List String) (npos : Nat) (kws : List String) : Bool :=
  decide (npos ≤ params.length) && kws.all (fun k => (params.drop npos).contains k)

/-- The parameter list of Database.add_processed_article (database.py line
64), self excluded: the function takes only the url. -/
def add_processed_article_params : List String := ["url"]

/-- The module-level USER_RESPONSES dict (telegram_bot.py line 16):
correlation id → recorded action (None until a button is pressed). -/
abbrev CorrTable := List (List Char × Option (List Char))

/-- Dict lookup: some v when the key is present with value v, none when
the key is absent. -/
def tlookup : CorrTable → List Char → Option (Option (List Char))
  | [], _ => none
  | (k, w) :: rest, key => if k = key then some w else tlookup rest key

/-- Dict assignment d[k] = v: overwrite when present, append when absent. -/
def tset : CorrTable → List Char → Option (List Char) → CorrTable
  | [], key, v => [(key, v)]
  | (k, w) :: rest, key, v =>
    if k = key then (key, v) :: rest else (k, w) :: tset rest key v

/-- Dict del / pop of a key. -/
def tremove (t : CorrTable) (key : List Char) : CorrTable :=
  t.filter (fun kv => kv.1 != key)

/-- callback_data.split(":", 1): the characters before the first ':' and
everything after it; none models the ValueError raised when the payload
contains no ':' at all. -/
def split_callback_data : List Char → Option (List Char × List Char)
  | [] => none
  | c :: cs =>
    if c = ':' then some ([], cs)
    else (split_callback_data cs).map (fun p => (c :: p.1, p.2))

/-- What TelegramNotifier._button_callback answers to the human: the
invalid-data error, the approval/ignore/other acknowledgement edits, or
the "expired or unknown" notice. -/
inductive Reply where
  | invalidData
  | approvedAck
  | ignoredAck
  | otherAck
  | expiredNotice
  deriving DecidableEq, Repr

/-- TelegramNotifier._button_callback (telegram_bot.py lines 48-78) acting
on USER_RESPONSES: parse the payload; on ValueError reply with the invalid
data error and change nothing; when the id is a live key record the action
under exactly that key and acknowledge it; otherwise reply that the action
has expired or the id is unknown and change nothing. -/
def button_callback (t : CorrTable) (data : List Char) : CorrTable × Reply :=
  match split_callback_data data with
  | none => (t, Reply.invalidData)
  | some (action, uid) =>
    match tlookup t uid with
    | some _ =>
      (tset t uid (some action),
        if action = "post".toList then Reply.approvedAck
        else if action = "ignore".toList then Reply.ignoredAck
        else Reply.otherAck)
    | none => (t, Reply.expiredNotice)

/-- The poll loop of send_article_for_approval_async (telegram_bot.py lines
160-167). Tick k is the k-th evaluation of the while condition; the body
runs only when k < timeout, reads the USER_RESPONSES entry for this id
(`resp k` is its value at that instant, as written by button callbacks) and
returns it when set, else sleeps one second until the next tick. -/
def waitPoll (resp : Nat → Option (List Char)) : Nat → Nat → Option (List Char)
  | _, 0 => none
  | k, r + 1 =>
    match resp k with
    | some a => some a
    | none => waitPoll resp (k + 1) r

/-- The wait phase of send_article_for_approval_async (telegram_bot.py
lines 160-177): return the recorded action when one is observed before the
deadline (popping the entry), else return "timeout" after deleting the
entry. `t` is the correlation table at exit time. -/
def send_article_for_approval (timeout : Nat) (resp : Nat → Option (List Char))
    (t : CorrTable) (uid : List Char) : List Char × CorrTable :=
  match waitPoll resp 0 timeout with
  | some a => (a, tremove t uid)
  | none => ("timeout".toList, tremove t uid)

/-- Externally visible effects of a run of main.py: urls passed to
LinkedInPoster.post_article, operator notifications sent over Telegram,
and (url, status) record calls issued to the Database. -/
structure RunEffects where
  publishes : List String
  notifications : List String
  records : List (String × String)
  deriving DecidableEq, Repr

/-- Concatenation of effects of consecutive loop iterations. -/
def RunEffects.append (e f : RunEffects) : RunEffects :=
  ⟨e.publishes ++ f.publishes, e.notifications ++ f.notifications,
   e.records ++ f.records⟩

/-- Python truthiness of an optional string: None and "" are falsy. -/
def truthy : Option String → Bool
  | none => false
  | some s => decide (s ≠ "")

/-- One iteration of the main.py per-article loop (main.py lines 59-97):
summarize (none models a falsy return as well as a raised exception, both
of which `continue`), ask for approval over Telegram, and on "post" call
LinkedInPoster.post_article, notifying the operator over Telegram when
posting fails or raises. No path of main.py issues a database call. -/
def process_article (summary : String → Option String) (approval : String → String)
    (publishOk : String → Bool) (a : Article) : RunEffects :=
  if truthy (summary a.url) then
    if approval a.url = "post" then
      if publishOk a.url then ⟨[a.url], [], []⟩
      else ⟨[a.url], ["publish_failed: " ++ a.url], []⟩
    else ⟨[], [], []⟩
  else ⟨[], [], []⟩

/-- The whole main.py run (main.py lines 50-99): fetch and dedupe, then
process each surviving article in order. -/
def main_run (summary : String → Option String) (approval : String → String)
    (publishOk : String → Bool) (providerResults : List (List Article)) : RunEffects :=
  ((fetch_all_articles providerResults).map
    (process_article summary approval publishOk)).foldr RunEffects.append ⟨[], [], []⟩

/-- One iteration of Orchestrator.run (src/src/orchestrator.py lines
39-68): fetch the article content; when it is falsy, issue the
add_processed_article call with status 'skipped_no_content' and continue;
otherwise summarize and send the article for approval — with no publish
call and no further record call on any path. Returns the (url, status)
record calls issued. -/
def orchestrator_process (content : String → Option String) (a : Article) :
    List (String × String) :=
  if truthy (content a.url) then [] else [(a.url, "skipped_no_content")]

/-- Orchestrator.run (orchestrator.py lines 17-77): keep the articles not
yet recorded as processed, then run the per-article step on each. -/
def orchestrator_run (db : Database) (content : String → Option String)
    (articles : List Article) : List (String × String) :=
  ((articles.filter (fun a => !article_is_processed db a.url)).map
    (orchestrator_process content)).flatten

/-- The retry loop of ArticleFetcher._make_request (article_fetcher.py
lines 27-40), with `r` attempts remaining and `k` the current attempt
index; `ok k` is whether the k-th HTTP request succeeds. Returns the index
of the successful attempt (none when all fail), the number of attempts
made, and the total seconds slept; time.sleep(retry_delay) runs only
between consecutive attempts. -/
def make_request_loop (delay : Nat) (ok : Nat → Bool) : Nat → Nat → Option Nat × Nat × Nat
  | _, 0 => (none, 0, 0)
  | k, r + 1 =>
    if ok k then (some k, 1, 0)
    else if r = 0 then (none, 1, 0)
    else
      ((make_request_loop delay ok (k + 1) r).1,
       (make_request_loop delay ok (k + 1) r).2.1 + 1,
       (make_request_loop delay ok (k + 1) r).2.2 + delay)

/-- ArticleFetcher._make_request: `for attempt in range(max_retries)`
starting at attempt 0. -/
def make_request (maxRetries delay : Nat) (ok : Nat → Bool) : Option Nat × Nat × Nat :=
  make_request_loop delay ok 0 maxRetries

/-- fetch_all_articles over per-provider outcomes: a provider whose request
chain fails contributes [] (each fetch_* method returns [] when
_make_request returns None), and the aggregation continues regardless. -/
def fetch_all_from_providers (ps : List (Option (List Article))) : List Article :=
  fetch_all_articles (ps.map (fun o => o.getD []))

/-- Response timeline used by the C4 witness: the entry is set to "post"
at tick 1 and unset at every other tick. -/
def respW : Nat → Option (List Char) :=
  fun k => if k = 1 then some "post".toList else none

/-
Lemmas about the dedupe loop.
-/

theorem dedupeByUrl_url_not_mem_seen :
    ∀ (l : List Article) (seen : List String) (a : Article),
      a ∈ dedupeByUrl l seen → a.url ∉ seen
  | [], _, _, h => by simp [dedupeByUrl] at h
  | b :: rest, seen, a, h => by
    unfold dedupeByUrl at h
    by_cases hb : b.url ∈ seen
    · rw [if_pos hb] at h
      exact dedupeByUrl_url_not_mem_seen rest seen a h
    · rw [if_neg hb] at h
      rcases List.mem_cons.1 h with h | h
      · subst h; exact hb
      · have := dedupeByUrl_url_not_mem_seen rest (b.url :: seen) a h
        exact fun hs => this (List.mem_cons_of_mem _ hs)

theorem dedupeByUrl_map_url_nodup :
    ∀ (l : List Article) (seen : List String),
      ((dedupeByUrl l seen).map (fun a => a.url)).Nodup
  | [], _ => by simp [dedupeByUrl]
  | b :: rest, seen => by
    unfold dedupeByUrl
    by_cases hb : b.url ∈ seen
    · rw [if_pos hb]
      exact dedupeByUrl_map_url_nodup rest seen
    · rw [if_neg hb]
      rw [List.map_cons, List.nodup_cons]
      refine ⟨?_, dedupeByUrl_map_url_nodup rest (b.url :: seen)⟩
      intro hmem
      rcases List.mem_map.1 hmem with ⟨a, ha, hurl⟩
      have := dedupeByUrl_url_not_mem_seen rest (b.url :: seen) a ha
      exact this (hurl ▸ List.mem_cons_self _ _)

theorem dedupeByUrl_sublist :
    ∀ (l : List Article) (seen : List String),
      List.Sublist (dedupeByUrl l seen) l
  | [], _ => by simp [dedupeByUrl]
  | b :: rest, seen => by
    unfold dedupeByUrl
    by_cases hb : b.url ∈ seen
    · rw [if_pos hb]
      exact List.Sublist.cons b (dedupeByUrl_sublist rest seen)
    · rw [if_neg hb]
      exact List.Sublist.cons₂ b (dedupeByUrl_sublist rest (b.url :: seen))

theorem dedupeByUrl_find? :
    ∀ (l : List Article) (seen : List String) (u : String), u ∉ seen →
      (dedupeByUrl l seen).find? (fun a => a.url == u) =
        l.find? (fun a => a.url == u)
  | [], _, _, _ => rfl
  | b :: rest, seen, u, hu => by
    unfold dedupeByUrl
    by_cases hb : b.url ∈ seen
    · rw [if_pos hb]
      have hne : (b.url == u) = false := by
        simp only [beq_eq_false_iff_ne, ne_eq]
        exact fun h => hu (h ▸ hb)
      rw [List.find?_cons, hne, dedupeByUrl_find? rest seen u hu]
    · rw [if_neg hb]
      by_cases hbu : b.url = u
      · rw [List.find?_cons, List.find?_cons]
        have : (b.url == u) = true := beq_iff_eq.2 hbu
        rw [this]
      · have hne : (b.url == u) = false := beq_eq_false_iff_ne.2 hbu
        rw [List.find?_cons, List.find?_cons, hne]
        refine dedupeByUrl_find? rest (b.url :: seen) u ?_
        intro h
        rcases List.mem_cons.1 h with h | h
        · exact hbu h.symm
        · exact hu h

theorem dedupeByUrl_length :
    ∀ (l : List Article) (seen : List String),
      (dedupeByUrl l seen).length + (droppedByUrl l seen).length = l.length
  | [], _ => rfl
  | b :: rest, seen => by
    unfold dedupeByUrl droppedByUrl
    by_cases hb : b.url ∈ seen
    · rw [if_pos hb, if_pos hb]
      simp only [List.length_cons]
      rw [← Nat.add_assoc, ← dedupeByUrl_length rest seen]
    · rw [if_neg hb, if_neg hb]
      simp only [List.length_cons]
      rw [Nat.succ_add, ← dedupeByUrl_length rest (b.url :: seen)]

/-- C8: fetch_all_articles returns each url at most once; the survivor for
a url is the first raw occurrence of that url (first occurrence wins); the
result is a sublist of the concatenated provider results, so the
source-native order inside each provider is preserved; and the kept and
dropped (logged) articles together account for every raw article. -/
theorem fetch_all_dedupe (providerResults : List (List Article)) (u : String) :
    ((fetch_all_articles providerResults).map (fun a => a.url)).count u ≤ 1 ∧
    (fetch_all_articles providerResults).find? (fun a => a.url == u) =
      providerResults.flatten.find? (fun a => a.url == u) ∧
    List.Sublist (fetch_all_articles providerResults) providerResults.flatten ∧
    (fetch_all_articles providerResults).length
      + (droppedByUrl providerResults.flatten []).length
      = providerResults.flatten.length := by
  refine ⟨?_, ?_, ?_, ?_⟩
  · exact List.nodup_iff_count_le_one.1 (dedupeByUrl_map_url_nodup _ _) u
  · exact dedupeByUrl_find? _ _ u (List.not_mem_nil u)
  · exact dedupeByUrl_sublist _ _
  · exact dedupeByUrl_length _ _

/-
Lemmas about the effects of the main.py run.
-/

theorem foldr_append_publishes :
    ∀ (l : List RunEffects),
      (l.foldr RunEffects.append ⟨[], [], []⟩).publishes
        = (l.map (fun e => e.publishes)).flatten
  | [] => rfl
  | e :: rest => by
    simp only [List.foldr_cons, List.map_cons, List.flatten_cons,
      ← foldr_append_publishes rest]
    rfl

theorem foldr_append_records :
    ∀ (l : List RunEffects),
      (l.foldr RunEffects.append ⟨[], [], []⟩).records
        = (l.map (fun e => e.records)).flatten
  | [] => rfl
  | e :: rest => by
    simp only [List.foldr_cons, List.map_cons, List.flatten_cons,
      ← foldr_append_records rest]
    rfl

theorem process_article_publishes_cases (S : String → Option String)
    (A : String → String) (P : String → Bool) (a : Article) :
    (process_article S A P a).publishes = [a.url] ∨
    (process_article S A P a).publishes = [] := by
  unfold process_article
  by_cases h1 : truthy (S a.url)
  · rw [if_pos h1]
    by_cases h2 : A a.url = "post"
    · rw [if_pos h2]
      by_cases h3 : P a.url
      · rw [if_pos h3]; exact Or.inl rfl
      · rw [if_neg h3]; exact Or.inl rfl
    · rw [if_neg h2]; exact Or.inr rfl
  · rw [if_neg h1]; exact Or.inr rfl

theorem process_article_records (S : String → Option String)
    (A : String → String) (P : String → Bool) (a : Article) :
    (process_article S A P a).records = [] := by
  unfold process_article
  by_cases h1 : truthy (S a.url)
  · rw [if_pos h1]
    by_cases h2 : A a.url = "post"
    · rw [if_pos h2]
      by_cases h3 : P a.url
      · rw [if_pos h3]
      · rw [if_neg h3]
    · rw [if_neg h2]
  · rw [if_neg h1]

theorem publishes_sublist_urls (S : String → Option String)
    (A : String → String) (P : String → Bool) :
    ∀ (l : List Article),
      List.Sublist ((l.map (fun a => (process_article S A P a).publishes)).flatten)
        (l.map (fun a => a.url))
  | [] => List.Sublist.refl []
  | a :: rest => by
    simp only [List.map_cons, List.flatten_cons]
    rcases process_article_publishes_cases S A P a with h | h
    · rw [h]
      exact List.Sublist.cons₂ a.url (publishes_sublist_urls S A P rest)
    · rw [h, List.nil_append]
      exact List.Sublist.cons a.url (publishes_sublist_urls S A P rest)

/-- C1: over a whole run of main.py on a fixed set of fetched items with
deterministic summary/approval/publish oracles, LinkedInPoster.post_article
is invoked at most once per distinct url, even when the same url occurs
several times in the raw pre-dedupe provider results. -/
theorem at_most_once_publish (summary : String → Option String)
    (approval : String → String) (publishOk : String → Bool)
    (providerResults : List (List Article)) (u : String) :
    (main_run summary approval publishOk providerResults).publishes.count u ≤ 1 := by
  have h1 : (main_run summary approval publishOk providerResults).publishes
      = ((fetch_all_articles providerResults).map
          (fun a => (process_article summary approval publishOk a).publishes)).flatten := by
    unfold main_run
    rw [foldr_append_publishes, List.map_map]
    rfl
  rw [h1]
  have h2 := (publishes_sublist_urls summary approval publishOk
    (fetch_all_articles providerResults)).count_le u
  exact le_trans h2
    (List.nodup_iff_count_le_one.1 (dedupeByUrl_map_url_nodup _ _) u)

/-
Lemmas about the correlation table (the USER_RESPONSES dict).
-/

theorem tlookup_tset_self :
    ∀ (t : CorrTable) (k : List Char) (v : Option (List Char)),
      tlookup (tset t k v) k = some v
  | [], k, v => by simp [tset, tlookup]
  | (k1, w) :: rest, k, v => by
    unfold tset
    by_cases h : k1 = k
    · rw [if_pos h]
      unfold tlookup
      rw [if_pos rfl]
    · rw [if_neg h]
      unfold tlookup
      rw [if_neg h]
      exact tlookup_tset_self rest k v

theorem tlookup_tset_ne :
    ∀ (t : CorrTable) (k k2 : List Char) (v : Option (List Char)), k ≠ k2 →
      tlookup (tset t k v) k2 = tlookup t k2
  | [], k, k2, v, hne => by
    simp [tset, tlookup, hne]
  | (k1, w) :: rest, k, k2, v, hne => by
    unfold tset
    by_cases h : k1 = k
    · rw [if_pos h]
      unfold tlookup
      rw [if_neg hne, if_neg (h ▸ hne)]
    · rw [if_neg h]
      unfold tlookup
      by_cases h2 : k1 = k2
      · rw [if_pos h2, if_pos h2]
      · rw [if_neg h2, if_neg h2]
        exact tlookup_tset_ne rest k k2 v hne

theorem tlookup_tremove_self (key : List Char) :
    ∀ (t : CorrTable), tlookup (tremove t key) key = none
  | [] => rfl
  | (k1, w) :: rest => by
    unfold tremove
    rw [List.filter_cons]
    by_cases h : k1 = key
    · have hb : ((k1, w).1 != key) = false := by simp [h]
      rw [hb]
      simpa [tremove] using tlookup_tremove_self key rest
    · have hb : ((k1, w).1 != key) = true := by simp [h]
      rw [hb]
      simp only [if_true]
      unfold tlookup
      rw [if_neg h]
      simpa [tremove] using tlookup_tremove_self key rest

/-
Lemmas about callback payload parsing.
-/

theorem split_callback_data_append :
    ∀ (a u : List Char), ':' ∉ a →
      split_callback_data (a ++ ':' :: u) = some (a, u)
  | [], u, _ => by simp [split_callback_data]
  | c :: a, u, h => by
    have hc : ¬c = ':' := fun hh => h (hh ▸ List.mem_cons_self ..)
    have ha : ':' ∉ a := fun hh => h (List.mem_cons_of_mem _ hh)
    simp only [List.cons_append, split_callback_data, if_neg hc, List.append_eq,
      split_callback_data_append a u ha, Option.map_some']

theorem split_callback_data_none :
    ∀ (p : List Char), ':' ∉ p → split_callback_data p = none
  | [], _ => rfl
  | c :: p, h => by
    have hc : ¬c = ':' := fun hh => h (hh ▸ List.mem_cons_self ..)
    unfold split_callback_data
    rw [if_neg hc, split_callback_data_none p (fun hh => h (List.mem_cons_of_mem _ hh))]
    rfl

/-- C10: an inbound button callback whose payload contains no ':' cannot
be parsed as action:correlation_id; the listener answers with the invalid
data error and returns with USER_RESPONSES unchanged, so every pending
approval request still resolves from its own untouched entry. -/
theorem invalid_payload_no_mutation (t : CorrTable) (p : List Char)
    (hp : ':' ∉ p) :
    button_callback t p = (t, Reply.invalidData) ∧
    ∀ uid, tlookup (button_callback t p).1 uid = tlookup t uid := by
  have h := split_callback_data_none p hp
  constructor
  · unfold button_callback
    rw [h]
  · intro uid
    unfold button_callback
    rw [h]

/-- Witness for C10 at a concrete colon-free payload. -/
theorem invalid_payload_no_mutation_witness :
    (':' ∉ "postarticle1".toList) ∧
    button_callback [(['a'], none)] "postarticle1".toList
      = ([(['a'], none)], Reply.invalidData) :=
  ⟨by decide,
   (invalid_payload_no_mutation [(['a'], none)] "postarticle1".toList (by decide)).1⟩

/-- C3: two pending requests with distinct correlation ids, resolved in
reverse order (the second-registered id j answered first): after each
inbound event only the entry with that event's correlation id changes, so
each waiter reads exactly its own outcome; in particular, after j's event,
i's entry is still unanswered. -/
theorem correlation_isolation (t : CorrTable) (i j ai aj : List Char)
    (hij : i ≠ j) (hi : tlookup t i = some none) (hj : tlookup t j = some none)
    (hai : ':' ∉ ai) (haj : ':' ∉ aj) :
    tlookup (button_callback t (aj ++ ':' :: j)).1 i = some none ∧
    tlookup (button_callback t (aj ++ ':' :: j)).1 j = some (some aj) ∧
    tlookup (button_callback (button_callback t (aj ++ ':' :: j)).1
      (ai ++ ':' :: i)).1 i = some (some ai) ∧
    tlookup (button_callback (button_callback t (aj ++ ':' :: j)).1
      (ai ++ ':' :: i)).1 j = some (some aj) := by
  have hsj := split_callback_data_append aj j haj
  have hsi := split_callback_data_append ai i hai
  have hbt : (button_callback t (aj ++ ':' :: j)).1 = tset t j (some aj) := by
    simp only [button_callback, hsj, hj]
  have hji : j ≠ i := fun h => hij h.symm
  have hlt1i : tlookup (button_callback t (aj ++ ':' :: j)).1 i = some none := by
    rw [hbt, tlookup_tset_ne t j i (some aj) hji, hi]
  have hset1i : tlookup (tset t j (some aj)) i = some none := by
    rw [tlookup_tset_ne t j i (some aj) hji]
    exact hi
  have hbt2 : (button_callback (button_callback t (aj ++ ':' :: j)).1
      (ai ++ ':' :: i)).1 = tset (tset t j (some aj)) i (some ai) := by
    rw [hbt]
    simp only [button_callback, hsi, hset1i]
  refine ⟨hlt1i, ?_, ?_, ?_⟩
  · rw [hbt, tlookup_tset_self]
  · rw [hbt2, tlookup_tset_self]
  · rw [hbt2, tlookup_tset_ne _ i j (some ai) hij, tlookup_tset_self]

/-- Witness for C3: two registered ids a and b, b answered "ignore" first,
then a answered "post"; each entry ends with its own action. -/
theorem correlation_isolation_witness :
    ((['a'] : List Char) ≠ ['b'] ∧
      tlookup [(['a'], none), (['b'], none)] ['a'] = some none ∧
      tlookup [(['a'], none), (['b'], none)] ['b'] = some none ∧
      ':' ∉ "post".toList ∧ ':' ∉ "ignore".toList) ∧
    (tlookup (button_callback [(['a'], none), (['b'], none)]
        ("ignore".toList ++ ':' :: ['b'])).1 ['a'] = some none ∧
      tlookup (button_callback [(['a'], none), (['b'], none)]
        ("ignore".toList ++ ':' :: ['b'])).1 ['b'] = some (some "ignore".toList) ∧
      tlookup (button_callback (button_callback [(['a'], none), (['b'], none)]
        ("ignore".toList ++ ':' :: ['b'])).1 ("post".toList ++ ':' :: ['a'])).1 ['a']
        = some (some "post".toList) ∧
      tlookup (button_callback (button_callback [(['a'], none), (['b'], none)]
        ("ignore".toList ++ ':' :: ['b'])).1 ("post".toList ++ ':' :: ['a'])).1 ['b']
        = some (some "ignore".toList)) :=
  ⟨⟨by decide, by decide, by decide, by decide, by decide⟩,
   correlation_isolation [(['a'], none), (['b'], none)] ['a'] ['b']
     "post".toList "ignore".toList (by decide) (by decide) (by decide)
     (by decide) (by decide)⟩

/-- C5 counterexample: a duplicate button press whose correlation id is
already resolved per the spec state machine (the entry holds the recorded
action "post", not yet consumed by the waiter) is NOT answered with the
expired notice: the listener acknowledges it as a fresh action and
overwrites the recorded action with "ignore". -/
theorem dup_press_overwrites_not_expired :
    (button_callback [(['a'], some "post".toList)]
      ("ignore".toList ++ ':' :: ['a'])).2 ≠ Reply.expiredNotice ∧
    (button_callback [(['a'], some "post".toList)]
      ("ignore".toList ++ ':' :: ['a'])).1 = [(['a'], some "ignore".toList)] := by
  decide

/-- C5 amended: the expired/already-handled notice is produced exactly for
payloads whose correlation id is absent from USER_RESPONSES (unknown, or
removed after the waiter resolved or timed out); such events are discarded
with the table unchanged — no entry is re-created and no waiter is
signalled. -/
theorem expired_notice_on_absent_id (t : CorrTable) (p action uid : List Char)
    (hp : split_callback_data p = some (action, uid))
    (hu : tlookup t uid = none) :
    button_callback t p = (t, Reply.expiredNotice) := by
  simp only [button_callback, hp, hu]

/-- Witness for the amended C5 at a concrete unknown id. -/
theorem expired_notice_on_absent_id_witness :
    (split_callback_data "post:a".toList = some ("post".toList, ['a']) ∧
      tlookup [(['b'], none)] ['a'] = none) ∧
    button_callback [(['b'], none)] "post:a".toList
      = ([(['b'], none)], Reply.expiredNotice) :=
  ⟨⟨by decide, by decide⟩,
   expired_notice_on_absent_id [(['b'], none)] "post:a".toList
     "post".toList ['a'] (by decide) (by decide)⟩

/-
Lemmas about the approval poll loop.
-/

theorem waitPoll_observed (resp : Nat → Option (List Char)) :
    ∀ (r k : Nat), (∃ j, j < r ∧ (resp (k + j)).isSome) →
      ∃ j, j < r ∧ waitPoll resp k r = resp (k + j) ∧ (resp (k + j)).isSome
  | 0, _, h => absurd h (by simp)
  | r + 1, k, h => by
    cases hr : resp k with
    | some a =>
      refine ⟨0, Nat.succ_pos r, ?_, ?_⟩
      · simp only [Nat.add_zero, waitPoll, hr]
      · rw [Nat.add_zero, hr]
        rfl
    | none =>
      obtain ⟨j, hj, hs⟩ := h
      cases j with
      | zero =>
        rw [Nat.add_zero, hr] at hs
        exact absurd hs (by simp)
      | succ j2 =>
        have hrec : ∃ j, j < r ∧ (resp (k + 1 + j)).isSome := by
          refine ⟨j2, Nat.lt_of_succ_lt_succ hj, ?_⟩
          rwa [show k + 1 + j2 = k + (j2 + 1) by omega]
        obtain ⟨j3, hj3, heq3, hs3⟩ := waitPoll_observed resp r (k + 1) hrec
        refine ⟨j3 + 1, Nat.succ_lt_succ hj3, ?_, ?_⟩
        · rw [show k + (j3 + 1) = k + 1 + j3 by omega]
          simp only [waitPoll, hr]
          exact heq3
        · rwa [show k + (j3 + 1) = k + 1 + j3 by omega]

theorem waitPoll_silent (resp : Nat → Option (List Char)) :
    ∀ (r k : Nat), (∀ j, j < r → resp (k + j) = none) →
      waitPoll resp k r = none
  | 0, _, _ => rfl
  | r + 1, k, h => by
    have h0 : resp k = none := by
      simpa using h 0 (Nat.succ_pos r)
    simp only [waitPoll, h0]
    refine waitPoll_silent resp r (k + 1) (fun j hj => ?_)
    have := h (j + 1) (Nat.succ_lt_succ hj)
    rwa [show k + (j + 1) = k + 1 + j by omega] at this

/-- C4: if a response is recorded in the entry and observed by the poll
loop before the while condition fails (the timer firing) — the deadline
tick itself is never observed, so an event only lands before the timer
when a body check sees it — the call resolves to that observed response
and never to "timeout"; when every tick before the deadline is unanswered
the call resolves to "timeout"; and on every exit path the correlation
entry for this id is removed from USER_RESPONSES (no leak). -/
theorem approval_timeout_race (timeout : Nat) (resp : Nat → Option (List Char))
    (t : CorrTable) (uid : List Char)
    (hval : ∀ k, k < timeout →
      resp k = none ∨ resp k = some "post".toList ∨ resp k = some "ignore".toList) :
    ((∃ k, k < timeout ∧ (resp k).isSome) →
      (∃ k, k < timeout ∧
        resp k = some (send_article_for_approval timeout resp t uid).1) ∧
      (send_article_for_approval timeout resp t uid).1 ≠ "timeout".toList) ∧
    ((∀ k, k < timeout → resp k = none) →
      (send_article_for_approval timeout resp t uid).1 = "timeout".toList) ∧
    tlookup (send_article_for_approval timeout resp t uid).2 uid = none := by
  refine ⟨?_, ?_, ?_⟩
  · intro hobs
    have hobs0 : ∃ j, j < timeout ∧ (resp (0 + j)).isSome := by
      simpa using hobs
    obtain ⟨j, hj, heq, hs⟩ := waitPoll_observed resp timeout 0 hobs0
    rw [Nat.zero_add] at heq hs
    obtain ⟨a, ha⟩ := Option.isSome_iff_exists.1 hs
    have hsend : (send_article_for_approval timeout resp t uid).1 = a := by
      simp only [send_article_for_approval, heq, ha]
    constructor
    · exact ⟨j, hj, by rw [hsend]; exact ha⟩
    · rw [hsend]
      rcases hval j hj with h | h | h
      · rw [h] at ha
        cases ha
      · rw [h] at ha
        rw [← Option.some_inj.1 ha]
        decide
      · rw [h] at ha
        rw [← Option.some_inj.1 ha]
        decide
  · intro hnone
    have : waitPoll resp 0 timeout = none :=
      waitPoll_silent resp timeout 0 (fun j hj => by simpa using hnone j hj)
    simp only [send_article_for_approval, this]
  · cases hw : waitPoll resp 0 timeout with
    | some a =>
      simp only [send_article_for_approval, hw]
      exact tlookup_tremove_self uid t
    | none =>
      simp only [send_article_for_approval, hw]
      exact tlookup_tremove_self uid t

/-- Witness for C4: timeout 3 ticks, the entry set to "post" at tick 1,
one live entry for id a. -/
theorem approval_timeout_race_witness :
    (∀ k, k < 3 →
      respW k = none ∨ respW k = some "post".toList ∨ respW k = some "ignore".toList) ∧
    (((∃ k, k < 3 ∧ (respW k).isSome) →
      (∃ k, k < 3 ∧
        respW k = some (send_article_for_approval 3 respW [(['a'], none)] ['a']).1) ∧
      (send_article_for_approval 3 respW [(['a'], none)] ['a']).1 ≠ "timeout".toList) ∧
    ((∀ k, k < 3 → respW k = none) →
      (send_article_for_approval 3 respW [(['a'], none)] ['a']).1 = "timeout".toList) ∧
    tlookup (send_article_for_approval 3 respW [(['a'], none)] ['a']).2 ['a'] = none) :=
  ⟨by decide, approval_timeout_race 3 respW [(['a'], none)] ['a'] (by decide)⟩

/-- C2 (code bug evidence): the record call issued by Orchestrator.run —
add_processed_article(article.url, status='skipped_no_content'),
orchestrator.py line 48, one positional argument plus the keyword
'status' — is rejected by the signature def add_processed_article(self,
url) of database.py line 64: Python raises TypeError, so record(id, s)
cannot store any status, and the processed_articles table has no status
column to hold one. -/
theorem record_status_call_rejected :
    pyCallOk add_processed_article_params 1 ["status"] = false := by decide

/-
Lemmas about record calls and notifications of the two pipelines.
-/

theorem process_article_notifications (S : String → Option String)
    (A : String → String) (P : String → Bool) (a : Article) :
    (process_article S A P a).notifications =
      (if truthy (S a.url) && (A a.url == "post") && !P a.url
       then ["publish_failed: " ++ a.url] else []) := by
  unfold process_article
  by_cases h1 : truthy (S a.url)
  · rw [if_pos h1]
    by_cases h2 : A a.url = "post"
    · rw [if_pos h2]
      by_cases h3 : P a.url
      · rw [if_pos h3]
        simp [h1, h2, h3]
      · rw [if_neg h3]
        simp only [Bool.not_eq_true] at h3
        simp [h1, h2, h3]
    · rw [if_neg h2]
      simp [h1, h2]
  · rw [if_neg h1]
    simp only [Bool.not_eq_true] at h1
    simp [h1]

theorem orchestrator_process_status (content : String → Option String)
    (a : Article) :
    (orchestrator_process content a).all
      (fun r => r.2 == "skipped_no_content") = true := by
  unfold orchestrator_process
  by_cases h : truthy (content a.url) <;> simp [h]

/-- C6 counterexample: a main.py run in which the single article "u" is
summarized successfully and the human answers "ignore" — the pipeline
reaches the terminal decision REJECTED — yet no ProcessedRecord with
status ignored is written (main.py writes no record on any path). -/
theorem rejected_item_not_recorded :
    ¬ (("u", "ignored") ∈ (main_run (fun _ => some "s") (fun _ => "ignore")
      (fun _ => true) [[⟨"t", "u", "hn", none⟩]]).records) := by decide

/-- C6 amended: main.py writes no ProcessedRecord at all for any terminal
decision; it does notify the operator over Telegram exactly when an
approved article's publish fails; the orchestrator.py variant issues a
record call only with status skipped_no_content (on a falsy content
fetch), never posted, ignored or failed_publish. -/
theorem terminal_record_divergence
    (summary : String → Option String) (approval : String → String)
    (publishOk : String → Bool) (providerResults : List (List Article))
    (a : Article) (db : Database) (content : String → Option String)
    (articles : List Article) :
    (main_run summary approval publishOk providerResults).records = [] ∧
    (process_article summary approval publishOk a).notifications =
      (if truthy (summary a.url) && (approval a.url == "post") && !publishOk a.url
       then ["publish_failed: " ++ a.url] else []) ∧
    (orchestrator_run db content articles).all
      (fun r => r.2 == "skipped_no_content") = true := by
  refine ⟨?_, process_article_notifications summary approval publishOk a, ?_⟩
  · have h : (main_run summary approval publishOk providerResults).records
        = ((fetch_all_articles providerResults).map
            (fun x => (process_article summary approval publishOk x).records)).flatten := by
      unfold main_run
      rw [foldr_append_records, List.map_map]
      rfl
    rw [h]
    simp [process_article_records]
  · rw [List.all_eq_true]
    intro r hr
    unfold orchestrator_run at hr
    rcases List.mem_flatten.1 hr with ⟨l, hl, hrl⟩
    rcases List.mem_map.1 hl with ⟨a2, _, rfl⟩
    have hall := orchestrator_process_status content a2
    rw [List.all_eq_true] at hall
    exact hall r hrl

/-- C7 counterexample: with the sqlite connection down,
article_is_processed reports a url that the table already holds as
unprocessed — the function has no caller-override input at all — and
add_processed_article returns the same False for the down-store failure
as it does for a benign duplicate insert on a live store, so the failure
is not distinguishably surfaced to the caller. -/
theorem store_down_fails_open :
    article_is_processed ⟨false, false, ["u"]⟩ "u" = false ∧
    add_processed_article ⟨false, false, ["u"]⟩ "u2" = (⟨false, false, ["u"]⟩, false) ∧
    (add_processed_article ⟨true, false, ["u"]⟩ "u").2 = false := by decide

/-- C7 amended: when the store is unreachable or the query errors,
article_is_processed unconditionally returns False (every item is treated
as unprocessed, with no caller override), and add_processed_article
failures are only logged: they return False, the same value a benign
duplicate insert returns, and leave the table unchanged. -/
theorem store_failure_amended (e : Bool) (rows : List String) (url : String) :
    article_is_processed ⟨false, e, rows⟩ url = false ∧
    add_processed_article ⟨false, e, rows⟩ url = (⟨false, e, rows⟩, false) ∧
    article_is_processed ⟨true, true, rows⟩ url = false ∧
    (add_processed_article ⟨true, true, rows⟩ url).2 = false ∧
    (add_processed_article ⟨true, false, url :: rows⟩ url).2 = false := by
  refine ⟨rfl, rfl, rfl, rfl, ?_⟩
  simp [add_processed_article]

/-
Lemmas about the retry loop.
-/

theorem make_request_loop_spec (delay : Nat) (ok : Nat → Bool) :
    ∀ (r k : Nat),
      (make_request_loop delay ok k r).2.1 ≤ r ∧
      (make_request_loop delay ok k r).2.2
        = ((make_request_loop delay ok k r).2.1 - 1) * delay ∧
      (1 ≤ r → 1 ≤ (make_request_loop delay ok k r).2.1)
  | 0, k => by
    refine ⟨Nat.le_refl 0, by simp [make_request_loop], ?_⟩
    intro h
    exact absurd h (by omega)
  | r + 1, k => by
    unfold make_request_loop
    by_cases h : ok k
    · rw [if_pos h]
      exact ⟨Nat.succ_le_succ (Nat.zero_le r), by simp, fun _ => Nat.le_refl 1⟩
    · rw [if_neg h]
      by_cases h0 : r = 0
      · rw [if_pos h0]
        exact ⟨Nat.succ_le_succ (Nat.zero_le r), by simp, fun _ => Nat.le_refl 1⟩
      · rw [if_neg h0]
        obtain ⟨ih1, ih2, ih3⟩ := make_request_loop_spec delay ok r (k + 1)
        refine ⟨by simpa using Nat.succ_le_succ ih1, ?_, fun _ => by simp⟩
        have hpos := ih3 (by omega)
        obtain ⟨b, hb⟩ := Nat.exists_eq_add_of_le hpos
        simp only [ih2, hb]
        rw [show 1 + b - 1 = b by omega, show 1 + b + 1 - 1 = b + 1 by omega]
        exact (Nat.succ_mul b delay).symm

/-- C9: every provider request is retried at most max_retries attempts,
with the fixed retry_delay slept exactly once between consecutive attempts
(total sleep = (attempts - 1) * delay); and a provider whose request chain
fails contributes [] exactly as a provider returning no items does, so the
aggregate fetch still returns the deduped items of the remaining
providers instead of aborting. -/
theorem retry_bound_and_fault_isolation (maxRetries delay : Nat)
    (ok : Nat → Bool) (ps1 ps2 : List (Option (List Article))) :
    (make_request maxRetries delay ok).2.1 ≤ maxRetries ∧
    (make_request maxRetries delay ok).2.2
      = ((make_request maxRetries delay ok).2.1 - 1) * delay ∧
    fetch_all_from_providers (ps1 ++ none :: ps2)
      = fetch_all_from_providers (ps1 ++ some [] :: ps2) := by
  refine ⟨(make_request_loop_spec delay ok maxRetries 0).1,
          (make_request_loop_spec delay ok maxRetries 0).2.1, ?_⟩
  unfold fetch_all_from_providers
  simp
